import Mathlib

/-!
Verification of the `pybug.transform` module (affine transforms over
homogeneous matrices, and single/batch point-set alignment).

Numeric arrays are modelled over `ℚ`.  The transform layer uses Mathlib
matrices indexed by `Fin`; the alignment layer uses list-based arrays so
that dynamic shapes (needed for the shape-error claims) are expressible.
-/

namespace Pybug

/-- The `AffineTransformation` class: wraps an (n+1)×(n+1) homogeneous
matrix describing an n-dimensional affine transform. -/
structure AffineTransformation (n : ℕ) where
  homogeneous_matrix : Matrix (Fin (n + 1)) (Fin (n + 1)) ℚ

namespace AffineTransformation

variable {n : ℕ}

/-- `linear_transformation` property: `homogeneous_matrix[:-1, :-1]`,
the top-left n×n block. -/
def linear_transformation (T : AffineTransformation n) : Matrix (Fin n) (Fin n) ℚ :=
  T.homogeneous_matrix.submatrix Fin.castSucc Fin.castSucc

/-- `translation` property: `homogeneous_matrix[-1, :-1]`, the first n
entries of the last row. -/
def translation (T : AffineTransformation n) : Fin n → ℚ :=
  fun j => T.homogeneous_matrix (Fin.last n) j.castSucc

/-- `chain`: `np.dot(self.homogeneous_matrix, x.homogeneous_matrix)`
wrapped in a fresh `AffineTransformation`. -/
def chain (T U : AffineTransformation n) : AffineTransformation n :=
  ⟨T.homogeneous_matrix * U.homogeneous_matrix⟩

/-- NumPy broadcasting of a length-n vector against an n×n array:
`(x + t)[i, j] = x[i, j] + t[j]` adds `t` to every row. -/
def rowBroadcast (t : Fin n → ℚ) : Matrix (Fin n) (Fin n) ℚ :=
  Matrix.of fun _ j => t j

/-- `apply`: `np.dot(self.linear_transformation, x + self.translation)`. -/
def apply (T : AffineTransformation n) (x : Matrix (Fin n) (Fin n) ℚ) :
    Matrix (Fin n) (Fin n) ℚ :=
  T.linear_transformation * (x + rowBroadcast T.translation)

end AffineTransformation

/-- The `Translation` factory: `np.eye(n + 1)` with the last row's first
n entries overwritten by the offset vector
(`homogeneous_matrix[-1, :-1] = transformation`). -/
def Translation {n : ℕ} (t : Fin n → ℚ) : AffineTransformation n :=
  ⟨(1 : Matrix (Fin (n + 1)) (Fin (n + 1)) ℚ).updateRow (Fin.last n) (Fin.snoc t 1)⟩

/-- The `Rotation` factory: `np.eye(n + 1)` with the top-left n×n block
overwritten by the supplied matrix (`homogeneous_matrix[:-1, :-1] = rotation`). -/
def Rotation {n : ℕ} (R : Matrix (Fin n) (Fin n) ℚ) : AffineTransformation n :=
  ⟨Matrix.of fun i j =>
    if hi : i = Fin.last n then (if j = Fin.last n then 1 else 0)
    else if hj : j = Fin.last n then 0
    else R (i.castPred hi) (j.castPred hj)⟩

/-- Claim C1: for every affine transform with homogeneous matrix M and
every compatible points array x, `apply x` equals the top-left n×n block
of M matrix-multiplied with `x + t`, where t is the first n entries of
M's last row (a row read, not a column read). -/
theorem C1_apply_formula {n : ℕ} (T : AffineTransformation n)
    (x : Matrix (Fin n) (Fin n) ℚ) :
    T.apply x
      = (T.homogeneous_matrix.submatrix Fin.castSucc Fin.castSucc)
          * (x + AffineTransformation.rowBroadcast
              (fun j => T.homogeneous_matrix (Fin.last n) j.castSucc)) := rfl

/-- Claim C2: `A.chain B` yields a transform whose homogeneous matrix is
the matrix product of A's and B's homogeneous matrices; the embedding is
purely functional, so the operands' matrices are untouched. -/
theorem C2_chain_product {n : ℕ} (A B : AffineTransformation n) :
    (A.chain B).homogeneous_matrix
      = A.homogeneous_matrix * B.homogeneous_matrix := rfl

/-- Claim C8: `Rotation R.linear_transformation` recovers exactly `R`
for every square matrix R. -/
theorem C8_rotation_roundtrip {n : ℕ} (R : Matrix (Fin n) (Fin n) ℚ) :
    (Rotation R).linear_transformation = R := by
  ext i j
  simp [Rotation, AffineTransformation.linear_transformation,
    Matrix.submatrix_apply, (Fin.castSucc_lt_last i).ne, (Fin.castSucc_lt_last j).ne]

/-- The linear part of a `Translation` transform is the identity: the
factory only rewrites the last row of `np.eye(n + 1)`. -/
theorem translation_linear_eq_one {n : ℕ} (t : Fin n → ℚ) :
    (Translation t).linear_transformation = 1 := by
  ext i j
  simp [Translation, AffineTransformation.linear_transformation,
    Matrix.submatrix_apply, Matrix.updateRow_apply, (Fin.castSucc_lt_last i).ne,
    Matrix.one_apply, Fin.castSucc_inj]

/-- The translation read off a `Translation` transform is the offset
vector it was built from. -/
theorem translation_translation_eq {n : ℕ} (t : Fin n → ℚ) :
    (Translation t).translation = t := by
  funext j
  simp [Translation, AffineTransformation.translation, Matrix.updateRow_self,
    Fin.snoc_castSucc]

/-- Claim C3: under the code's own apply formula,
`Translation t |>.apply x` is exactly `x + t` (with `t` broadcast against
the rows of `x`, as NumPy does). -/
theorem C3_translation_apply {n : ℕ} (t : Fin n → ℚ)
    (x : Matrix (Fin n) (Fin n) ℚ) :
    (Translation t).apply x = x + AffineTransformation.rowBroadcast t := by
  rw [AffineTransformation.apply, translation_linear_eq_one,
    translation_translation_eq, Matrix.one_mul]

/-- A NumPy array of arbitrary rank: its shape list together with the
flat (row-major) data.  Used for the `Alignment` constructor, whose
behaviour depends on the rank of its input. -/
structure NDArray where
  shape : List ℕ
  data : List ℚ

/-- Outcomes of `Alignment.__init__` that are not normal returns:
the dedicated `AlignmentError`, and Python's `AssertionError`. -/
inductive AlignError where
  | alignmentError
  | assertionError
deriving DecidableEq

/-- The fields stored by a successfully constructed `Alignment`. -/
structure Alignment where
  source : NDArray
  aligned_source : NDArray
  n_landmarks : ℕ
  n_dim : ℕ
  target : NDArray

/-- `Alignment.__init__`: stores `source` and a copy as `aligned_source`;
unpacks `source.shape` into `(n_landmarks, n_dim)`, turning the
`ValueError` of a failed unpack (rank ≠ 2) into an `AlignmentError`;
then runs `assert self.n_dim, self.n_landmarks == target.shape` — a
Python assert whose condition is just `self.n_dim` (the comparison after
the comma is only the assert's message), so it fails exactly when
`n_dim` is 0 and performs no source/target shape comparison — and
finally stores `target`. -/
def Alignment.init (source target : NDArray) : Except AlignError Alignment :=
  match source.shape with
  | [L, D] =>
      if D = 0 then .error .assertionError
      else .ok { source := source, aligned_source := source,
                 n_landmarks := L, n_dim := D, target := target }
  | _ => .error .alignmentError

/-- Claim C7: constructing an `Alignment` from a source whose shape does
not unpack to `(n_landmarks, n_dim)` raises the dedicated
`AlignmentError`, for every target. -/
theorem C7_non2d_alignment_error (source target : NDArray)
    (h : source.shape.length ≠ 2) :
    Alignment.init source target = .error .alignmentError := by
  unfold Alignment.init
  rcases hs : source.shape with _ | ⟨a, _ | ⟨b, _ | ⟨c, l⟩⟩⟩ <;> simp_all

/-- Witness for C7 at a concrete 1-D source of shape (5,). -/
theorem C7_non2d_alignment_error_witness :
    (NDArray.mk [5] [1, 2, 3, 4, 5]).shape.length ≠ 2 ∧
      Alignment.init (NDArray.mk [5] [1, 2, 3, 4, 5]) (NDArray.mk [5] [1, 2, 3, 4, 5])
        = .error .alignmentError :=
  ⟨by decide, C7_non2d_alignment_error _ _ (by decide)⟩

/-- Claim C6 evaluated on the code: a source of shape (2, 3) and a
target of the thoroughly different shape (4, 5) are accepted — the
constructor returns normally and stores the mismatched target, because
`assert self.n_dim, self.n_landmarks == target.shape` only tests that
`n_dim` is nonzero. -/
theorem C6_mismatch_accepted :
    Alignment.init (NDArray.mk [2, 3] [1, 2, 3, 4, 5, 6])
        (NDArray.mk [4, 5] (List.replicate 20 0))
      = .ok { source := NDArray.mk [2, 3] [1, 2, 3, 4, 5, 6],
              aligned_source := NDArray.mk [2, 3] [1, 2, 3, 4, 5, 6],
              n_landmarks := 2, n_dim := 3,
              target := NDArray.mk [4, 5] (List.replicate 20 0) } := rfl

/-- A 2-D NumPy array of landmarks, as a list of rows.  The batch
alignment claims only ever handle rank-2 point sets, so this fixed-rank
view suffices there (the rank-sensitive `Alignment` uses `NDArray`). -/
abbrev Arr := List (List ℚ)

/-- `_numpy_hash`: SHA1 digest of the array's raw byte buffer.  The spec
only relies on the digest being injective per distinct byte content, so
it is modelled as the flat element sequence itself, which determines and
is determined by the raw bytes (for a fixed dtype). -/
def numpy_hash (a : Arr) : List ℚ := a.flatten

/-- Element read `a[r][c]` with NumPy-irrelevant out-of-range defaults. -/
def Arr.entry (a : Arr) (r c : ℕ) : ℚ := (a.getD r []).getD c 0

/-- `source.shape == (L, D)` exactly: the assignment
`self.sources[:, :, i] = source` requires the slice shapes to agree. -/
def hasShape (a : Arr) (L D : ℕ) : Bool :=
  a.length == L && a.all fun r => r.length == D

/-- The `_lookup` dict built by `for i, source in enumerate(sources):
self._lookup[_numpy_hash(source)] = i`, as the list of assignments in
order. -/
def buildLookupFrom (i : ℕ) : List Arr → List (List ℚ × ℕ)
  | [] => []
  | s :: rest => (numpy_hash s, i) :: buildLookupFrom (i + 1) rest

/-- Reading a Python dict that was populated by successive assignments:
the latest assignment to a key wins. -/
def dictLookup : List (List ℚ × ℕ) → List ℚ → Option ℕ
  | [], _ => none
  | (k, v) :: rest, key =>
      match dictLookup rest key with
      | some r => some r
      | none => if k = key then some v else none

/-- `self.sources.mean(2)` on the stacked (L, D, N) tensor: the
element-wise mean over the N stacked sources. -/
def tensorMean (L D : ℕ) (slices : List Arr) : Arr :=
  (List.range L).map fun r =>
    (List.range D).map fun c =>
      (slices.map fun s => Arr.entry s r c).sum / (slices.length : ℚ)

/-- The argument accepted by `ParallelAlignment.__init__`: either a
single bare array or a list of arrays. -/
inductive SourcesArg where
  | single (a : Arr)
  | list (l : List Arr)

/-- `if type(sources) == np.ndarray: sources = [sources]` — a bare
array is wrapped into a one-element list. -/
def SourcesArg.toList : SourcesArg → List Arr
  | .single a => [a]
  | .list l => l

/-- NumPy-level failures of `ParallelAlignment`: `IndexError` from
`sources[0]` on an empty list, `AssertionError` from
`assert n_dim, ...` when `n_dim` is 0, `ValueError` from assigning a
wrong-shaped slice into the stacked tensor, and `KeyError` from the
`_lookup` dict. -/
inductive NpError where
  | indexError
  | assertionError
  | valueError
  | keyError
deriving DecidableEq

/-- The fields stored by a successfully constructed
`ParallelAlignment`.  The (L, D, N) tensors `sources`,
`aligned_sources` and the (L, D, 1) tensor `target` are represented as
their lists of 2-D slices along the last axis. -/
structure ParallelAlignment where
  sources : List Arr
  aligned_sources : List Arr
  lookup : List (List ℚ × ℕ)
  target : List Arr

/-- The body of `ParallelAlignment.__init__` after the bare-array
normalisation: reads `n_landmarks, n_dim` from `sources[0].shape`
(`IndexError` on an empty list), runs the per-source loop — whose
`assert n_dim, ...` tests only that `n_dim` is nonzero, whose slice
assignment demands each source have shape (n_landmarks, n_dim), and
which records `hash → index` — copies the tensor into
`aligned_sources`, and sets `target` to the stacked mean (plus a fresh
trailing axis) when it was omitted, or to the supplied array (plus a
trailing axis, with no effective shape check) otherwise. -/
def ParallelAlignment.initList (sources : List Arr) (target : Option Arr) :
    Except NpError ParallelAlignment :=
  match sources with
  | [] => .error .indexError
  | s0 :: rest =>
      if (s0.headD []).length = 0 then .error .assertionError
      else if (s0 :: rest).all (fun s => hasShape s s0.length (s0.headD []).length) then
        .ok { sources := s0 :: rest,
              aligned_sources := s0 :: rest,
              lookup := buildLookupFrom 0 (s0 :: rest),
              target :=
                match target with
                | none => [tensorMean s0.length (s0.headD []).length (s0 :: rest)]
                | some t => [t] }
      else .error .valueError

/-- `ParallelAlignment.__init__`: wraps a bare array into a one-element
list, then proceeds as `initList`. -/
def ParallelAlignment.init (sourcesArg : SourcesArg) (target : Option Arr) :
    Except NpError ParallelAlignment :=
  ParallelAlignment.initList sourcesArg.toList target

/-- `n_landmarks` property: `self.sources.shape[0]`. -/
def ParallelAlignment.n_landmarks (p : ParallelAlignment) : ℕ :=
  (p.sources.headD []).length

/-- `n_dimensions` property: `self.sources.shape[1]`. -/
def ParallelAlignment.n_dimensions (p : ParallelAlignment) : ℕ :=
  ((p.sources.headD []).headD []).length

/-- `n_sources` property: `self.sources.shape[2]`. -/
def ParallelAlignment.n_sources (p : ParallelAlignment) : ℕ :=
  p.sources.length

/-- `aligned_version_of_source`: hashes the given array, looks the hash
up in `_lookup` (`KeyError` on a miss) and returns the matching slice
`self.aligned_sources[..., i]`. -/
def ParallelAlignment.aligned_version_of_source (p : ParallelAlignment) (source : Arr) :
    Except NpError Arr :=
  match dictLookup p.lookup (numpy_hash source) with
  | some i => .ok (p.aligned_sources.getD i [])
  | none => .error .keyError

/-- Inversion of a successful `initList` run: the stored fields are the
source list itself, its copy, the enumeration-order lookup dict, and the
(mean or supplied) target slice. -/
theorem initList_ok_fields (s0 : Arr) (rest : List Arr) (tgt : Option Arr)
    (p : ParallelAlignment)
    (hp : ParallelAlignment.initList (s0 :: rest) tgt = .ok p) :
    p.sources = s0 :: rest ∧ p.aligned_sources = s0 :: rest ∧
    p.lookup = buildLookupFrom 0 (s0 :: rest) := by
  simp only [ParallelAlignment.initList] at hp
  by_cases h1 : (s0.headD []).length = 0
  · rw [if_pos h1] at hp
    cases hp
  · rw [if_neg h1] at hp
    by_cases h2 : ((s0 :: rest).all fun s => hasShape s s0.length (s0.headD []).length) = true
    · rw [if_pos h2] at hp
      cases hp
      exact ⟨rfl, rfl, rfl⟩
    · rw [if_neg h2] at hp
      cases hp

/-- Inversion of a successful `initList` run with the target omitted:
the stored target is the stacked mean with a fresh trailing axis. -/
theorem initList_none_target (s0 : Arr) (rest : List Arr)
    (p : ParallelAlignment)
    (hp : ParallelAlignment.initList (s0 :: rest) none = .ok p) :
    p.target = [tensorMean s0.length (s0.headD []).length (s0 :: rest)] := by
  simp only [ParallelAlignment.initList] at hp
  by_cases h1 : (s0.headD []).length = 0
  · rw [if_pos h1] at hp
    cases hp
  · rw [if_neg h1] at hp
    by_cases h2 : ((s0 :: rest).all fun s => hasShape s s0.length (s0.headD []).length) = true
    · rw [if_pos h2] at hp
      cases hp
      rfl
    · rw [if_neg h2] at hp
      cases hp

/-- Every entry of the lookup dict built from offset `n` pairs the hash
of the k-th remaining source with index `n + k`. -/
theorem mem_buildLookupFrom (ss : List Arr) (n : ℕ) (q : List ℚ × ℕ)
    (hq : q ∈ buildLookupFrom n ss) :
    ∃ k, k < ss.length ∧ q = (numpy_hash (ss.getD k []), n + k) := by
  induction ss generalizing n with
  | nil => cases hq
  | cons s t ih =>
      rcases List.mem_cons.mp hq with hq | hq
      · exact ⟨0, by simp, by simpa using hq⟩
      · obtain ⟨k, hk, hqk⟩ := ih (n + 1) hq
        refine ⟨k + 1, by simpa using hk, ?_⟩
        rw [show n + (k + 1) = (n + 1) + k by omega]
        simpa [List.getD_cons_succ] using hqk

/-- A key assigned by none of the dict's entries is not found. -/
theorem dictLookup_none (l : List (List ℚ × ℕ)) (key : List ℚ)
    (h : ∀ q ∈ l, q.1 ≠ key) : dictLookup l key = none := by
  induction l with
  | nil => rfl
  | cons q t ih =>
      rcases q with ⟨k, v⟩
      unfold dictLookup
      rw [ih (fun q hq => h q (List.mem_cons_of_mem _ hq))]
      simp [h ⟨k, v⟩ (List.mem_cons_self _ _)]

/-- Dict semantics of the enumeration loop: a key hashing the j-th
source, where j is the last index with that hash, is looked up to
`n + j` (later assignments overwrite earlier ones). -/
theorem dictLookup_last (ss : List Arr) (n j : ℕ) (key : List ℚ)
    (hj : j < ss.length) (hkey : numpy_hash (ss.getD j []) = key)
    (hlast : ∀ k, j < k → k < ss.length → numpy_hash (ss.getD k []) ≠ key) :
    dictLookup (buildLookupFrom n ss) key = some (n + j) := by
  induction ss generalizing n j with
  | nil => exact absurd hj (by simp)
  | cons s t ih =>
      cases j with
      | zero =>
          have hnone : dictLookup (buildLookupFrom (n + 1) t) key = none := by
            apply dictLookup_none
            intro q hq
            obtain ⟨k, hk, rfl⟩ := mem_buildLookupFrom t (n + 1) q hq
            exact hlast (k + 1) (Nat.succ_pos k) (by simpa using hk)
          unfold buildLookupFrom dictLookup
          rw [hnone]
          simp only [List.getD_cons_zero] at hkey
          simp [hkey]
      | succ j' =>
          have ht := ih (n + 1) j' (by simpa using hj)
            (by simpa [List.getD_cons_succ] using hkey)
            (fun k hk1 hk2 hk3 => hlast (k + 1) (by omega) (by simpa using hk2)
              (by simpa [List.getD_cons_succ] using hk3))
          unfold buildLookupFrom dictLookup
          rw [ht]
          simp only [Option.some.injEq]
          omega

/-- With pairwise-distinct content hashes, no later source shares the
i-th source's hash. -/
theorem nodup_hash_last (ss : List Arr) (i : ℕ)
    (hnd : (ss.map numpy_hash).Nodup) (hi : i < ss.length) :
    ∀ k, i < k → k < ss.length →
      numpy_hash (ss.getD k []) ≠ numpy_hash (ss.getD i []) := by
  intro k hik hk heq
  have hk' : k < (ss.map numpy_hash).length := by simpa using hk
  have hi' : i < (ss.map numpy_hash).length := by simpa using hi
  have h1 : (ss.map numpy_hash).get ⟨k, hk'⟩ = (ss.map numpy_hash).get ⟨i, hi'⟩ := by
    rw [List.get_eq_getElem, List.get_eq_getElem, List.getElem_map, List.getElem_map,
      ← List.getD_eq_getElem ss [] hk, ← List.getD_eq_getElem ss [] hi]
    exact heq
  have h2 := (List.Nodup.get_inj_iff hnd).mp h1
  have h3 : k = i := by simpa using congrArg Fin.val h2
  omega

/-- Reading a mapped range at an in-range index yields the mapped value. -/
theorem getD_map_range {α : Type} (f : ℕ → α) {L r : ℕ} (hr : r < L) (d : α) :
    ((List.range L).map f).getD r d = f r := by
  rw [List.getD_eq_getElem _ _ (by simpa using hr)]
  simp

/-- The stacked mean has one row per landmark. -/
theorem tensorMean_length (L D : ℕ) (slices : List Arr) :
    (tensorMean L D slices).length = L := by
  simp [tensorMean]

/-- Every row of the stacked mean has one entry per dimension. -/
theorem tensorMean_row_length (L D : ℕ) (slices : List Arr) :
    ∀ row ∈ tensorMean L D slices, row.length = D := by
  intro row hrow
  obtain ⟨r, _, rfl⟩ := List.mem_map.mp hrow
  simp

/-- The (r, c) element of the stacked mean is the mean of the (r, c)
elements of the slices. -/
theorem tensorMean_entry (L D : ℕ) (slices : List Arr) {r c : ℕ}
    (hr : r < L) (hc : c < D) :
    Arr.entry (tensorMean L D slices) r c
      = (slices.map fun s => Arr.entry s r c).sum / (slices.length : ℚ) := by
  have h : Arr.entry (tensorMean L D slices) r c
      = ((tensorMean L D slices).getD r []).getD c 0 := rfl
  rw [h]
  unfold tensorMean
  rw [getD_map_range _ hr, getD_map_range _ hc]

/-- Claim C9: constructing a `ParallelAlignment` from a single bare 2-D
array and from the one-element list holding that array produce the very
same result (same tensors, same lookup, same target, hence the same
derived sizes and lookup behaviour). -/
theorem C9_single_array_wrap (a : Arr) (tgt : Option Arr) :
    ParallelAlignment.init (SourcesArg.single a) tgt
      = ParallelAlignment.init (SourcesArg.list [a]) tgt := rfl

/-- Claim C4: in a `ParallelAlignment` built from sources with
pairwise-distinct content hashes, presenting an array with the byte
content of the i-th source returns the slice of `aligned_sources` at
index i, and presenting an array whose content hash was never recorded
raises the lookup (`KeyError`) error. -/
theorem C4_lookup_roundtrip (ss : List Arr) (tgt : Option Arr)
    (p : ParallelAlignment)
    (hp : ParallelAlignment.init (SourcesArg.list ss) tgt = .ok p)
    (hnd : (ss.map numpy_hash).Nodup) :
    (∀ i, i < ss.length → ∀ s, numpy_hash s = numpy_hash (ss.getD i []) →
        p.aligned_version_of_source s = .ok (p.aligned_sources.getD i [])) ∧
    (∀ s, numpy_hash s ∉ ss.map numpy_hash →
        p.aligned_version_of_source s = .error .keyError) := by
  rcases ss with _ | ⟨s0, rest⟩
  · cases hp
  obtain ⟨hsrc, hal, hlk⟩ := initList_ok_fields s0 rest tgt p hp
  constructor
  · intro i hi s hs
    have hdl : dictLookup (buildLookupFrom 0 (s0 :: rest)) (numpy_hash s) = some i := by
      rw [hs]
      simpa using dictLookup_last (s0 :: rest) 0 i _ hi rfl
        (nodup_hash_last (s0 :: rest) i hnd hi)
    unfold ParallelAlignment.aligned_version_of_source
    rw [hlk, hdl]
  · intro s hs
    have hdl : dictLookup (buildLookupFrom 0 (s0 :: rest)) (numpy_hash s) = none := by
      apply dictLookup_none
      intro q hq
      obtain ⟨k, hk, rfl⟩ := mem_buildLookupFrom (s0 :: rest) 0 q hq
      intro hcontra
      refine hs ?_
      rw [← hcontra, List.getD_eq_getElem _ _ hk]
      exact List.mem_map_of_mem numpy_hash (List.getElem_mem hk)
    unfold ParallelAlignment.aligned_version_of_source
    rw [hlk, hdl]

/-- The two demo sources (shapes (1, 2)) for the C4 witness. -/
def demo2 : List Arr := [[[1, 2]], [[3, 4]]]

/-- The object `ParallelAlignment(demo2, target=[[0, 0]])` stores. -/
def demoP4 : ParallelAlignment :=
  { sources := demo2, aligned_sources := demo2,
    lookup := buildLookupFrom 0 demo2, target := [[[0, 0]]] }

/-- Witness for C4: hit at index 1 with an equal-content array, and a
miss with an array never supplied. -/
theorem C4_lookup_roundtrip_witness :
    ParallelAlignment.init (SourcesArg.list demo2) (some [[0, 0]]) = .ok demoP4 ∧
    demoP4.aligned_version_of_source [[3, 4]] = .ok [[3, 4]] ∧
    demoP4.aligned_version_of_source [[9, 9]] = .error .keyError := by
  have h := C4_lookup_roundtrip demo2 (some [[0, 0]]) demoP4 rfl (by decide)
  exact ⟨rfl, h.1 1 (by decide) [[3, 4]] (by decide), h.2 [[9, 9]] (by decide)⟩

/-- Claim C5: when the target is omitted, the stored target is the
(L, D, 1)-shaped tensor (a single slice, with `n_landmarks` rows of
`n_dimensions` entries) whose (r, c) element is the mean over the
sources of their (r, c) elements. -/
theorem C5_mean_target (s0 : Arr) (rest : List Arr) (p : ParallelAlignment)
    (hp : ParallelAlignment.init (SourcesArg.list (s0 :: rest)) none = .ok p)
    (r c : ℕ) (hr : r < p.n_landmarks) (hc : c < p.n_dimensions) :
    p.target.length = 1 ∧
    (p.target.headD []).length = p.n_landmarks ∧
    (∀ row ∈ p.target.headD [], row.length = p.n_dimensions) ∧
    Arr.entry (p.target.headD []) r c
      = ((s0 :: rest).map fun s => Arr.entry s r c).sum
          / (((s0 :: rest).length : ℚ)) := by
  obtain ⟨hsrc, hal, hlk⟩ := initList_ok_fields s0 rest none p hp
  have htg := initList_none_target s0 rest p hp
  have hL : p.n_landmarks = s0.length := by
    rw [ParallelAlignment.n_landmarks, hsrc]
    rfl
  have hD : p.n_dimensions = (s0.headD []).length := by
    rw [ParallelAlignment.n_dimensions, hsrc]
    rfl
  rw [hL] at hr
  rw [hD] at hc
  refine ⟨by rw [htg]; rfl, ?_, ?_, ?_⟩
  · rw [htg, hL]
    simpa using tensorMean_length s0.length (s0.headD []).length (s0 :: rest)
  · rw [htg, hD]
    simpa using tensorMean_row_length s0.length (s0.headD []).length (s0 :: rest)
  · rw [htg]
    simpa using tensorMean_entry s0.length (s0.headD []).length (s0 :: rest) hr hc

/-- The three demo sources (shapes (1, 2)) for the C5 witness. -/
def demo3 : List Arr := [[[1, 2]], [[3, 4]], [[5, 6]]]

/-- The object `ParallelAlignment(demo3)` (no target) stores. -/
def demoP5 : ParallelAlignment :=
  { sources := demo3, aligned_sources := demo3,
    lookup := buildLookupFrom 0 demo3, target := [tensorMean 1 2 demo3] }

/-- Witness for C5: with sources [[1,2]], [[3,4]], [[5,6]] and no
target, the stored target is a single slice whose (0, 0) element is
the mean 3. -/
theorem C5_mean_target_witness :
    ParallelAlignment.init (SourcesArg.list demo3) none = .ok demoP5 ∧
    demoP5.target.length = 1 ∧
    Arr.entry (demoP5.target.headD []) 0 0 = 3 := by
  have h := C5_mean_target [[1, 2]] [[[3, 4]], [[5, 6]]] demoP5 rfl 0 0
    (by decide) (by decide)
  refine ⟨rfl, h.1, ?_⟩
  rw [h.2.2.2]
  norm_num [Arr.entry]

/-- Claim C10: if positions i < j of the source list hold arrays with
the same byte content (and j is the last position with that content),
the lookup dict maps that content to the later index j — the earlier
assignment was silently overwritten — and `aligned_version_of_source`
on that content returns the slice of `aligned_sources` at index j.  The
accompanying witness shows such a construction succeeding. -/
theorem C10_duplicate_last_wins (ss : List Arr) (tgt : Option Arr)
    (p : ParallelAlignment) (i j : ℕ)
    (hp : ParallelAlignment.init (SourcesArg.list ss) tgt = .ok p)
    (_hij : i < j) (hj : j < ss.length)
    (hdup : numpy_hash (ss.getD i []) = numpy_hash (ss.getD j []))
    (hlast : ∀ k, j < k → k < ss.length →
        numpy_hash (ss.getD k []) ≠ numpy_hash (ss.getD j [])) :
    dictLookup p.lookup (numpy_hash (ss.getD i [])) = some j ∧
    p.aligned_version_of_source (ss.getD i [])
      = .ok (p.aligned_sources.getD j []) := by
  rcases ss with _ | ⟨s0, rest⟩
  · cases hp
  obtain ⟨hsrc, hal, hlk⟩ := initList_ok_fields s0 rest tgt p hp
  have hdl : dictLookup (buildLookupFrom 0 (s0 :: rest))
      (numpy_hash ((s0 :: rest).getD i [])) = some j := by
    rw [hdup]
    simpa using dictLookup_last (s0 :: rest) 0 j _ hj rfl hlast
  refine ⟨by rw [hlk]; exact hdl, ?_⟩
  unfold ParallelAlignment.aligned_version_of_source
  rw [hlk, hdl]

/-- A source list whose positions 0 and 2 hold identical content. -/
def demoDup : List Arr := [[[1, 2]], [[3, 4]], [[1, 2]]]

/-- The object `ParallelAlignment(demoDup, target=[[0, 0]])` stores. -/
def demoP10 : ParallelAlignment :=
  { sources := demoDup, aligned_sources := demoDup,
    lookup := buildLookupFrom 0 demoDup, target := [[[0, 0]]] }

/-- Witness for C10: constructing from [[1,2]], [[3,4]], [[1,2]]
succeeds, the duplicated content is looked up at index 2, and the
aligned version returned is the slice at index 2. -/
theorem C10_duplicate_last_wins_witness :
    ParallelAlignment.init (SourcesArg.list demoDup) (some [[0, 0]]) = .ok demoP10 ∧
    dictLookup demoP10.lookup (numpy_hash [[1, 2]]) = some 2 ∧
    demoP10.aligned_version_of_source [[1, 2]] = .ok [[1, 2]] := by
  have h := C10_duplicate_last_wins demoDup (some [[0, 0]]) demoP10 0 2 rfl
    (by decide) (by decide) (by decide)
    (by
      intro k h1 h2
      have h3 : demoDup.length = 3 := rfl
      omega)
  exact ⟨rfl, h.1, h.2⟩

end Pybug
